import Mathlib

/-!
Shallow embedding of the two model components of `pytorch-widedeep` that the
verification targets:

* `SAINT` (`src/pytorch_widedeep/models/tabular/transformers/saint.py`)
* `AttentiveRNN` (`src/pytorch_widedeep/models/text/attentive_rnn.py`)

Tensors are modelled as nested lists of rationals.  The repository's own
logic (constructor validation, dimension bookkeeping, and the tensor wiring
in `forward` / `_process_rnn_outputs`) is translated directly from the
source.  Collaborator modules that are part of the repository but not under
`src/` (`MLP`, `ContextAttention`, `SaintEncoder`,
`SameSizeCatAndContEmbeddings`) and framework-owned numerics (`nn.LSTM`,
`nn.GRU`, `nn.Embedding`) are modelled from the specification's contracts;
each such definition carries a `Modelled from the spec:` doc comment.
Python runtime failures (raised exceptions, unbound locals, tensor shape
errors) are represented with `Except PyErr`.
-/

set_option maxRecDepth 10000

namespace PWD

/-- 1-D tensor (a vector of scalars). -/
abbrev Vec := List ℚ

/-- 2-D tensor. -/
abbrev Mat := List Vec

/-- 3-D tensor (e.g. batch x seq x dim). -/
abbrev Ten3 := List Mat

/-- 4-D tensor (attention weights). -/
abbrev Ten4 := List Ten3

/-- Python runtime / construction errors that the embedded code can raise. -/
inductive PyErr where
  | valueError (msg : String)
  | assertionError (msg : String)
  | typeError (msg : String)
  | unboundLocal (name : String)
  | indexError
  | shapeError
deriving DecidableEq, Repr

/-- A vector of `n` zeros (placeholder contents of framework-produced
tensors; only shapes matter to the claims). -/
def vzeros (n : Nat) : Vec := List.replicate n 0

/-- Scale a vector by a rational constant. -/
def vscale (c : ℚ) (v : Vec) : Vec := v.map (fun x => c * x)

/-- Sum a list of vectors of width `d` (the zero vector of width `d` when
the list is empty, like summing a tensor along an empty axis). -/
def vecSum (d : Nat) (rows : Mat) : Vec :=
  rows.foldl (fun acc r => List.zipWith (· + ·) acc r) (vzeros d)

/-- `torch.cat((a, b), dim=1)` on 2-D tensors: concatenate rows pairwise. -/
def cat2dim1 (a b : Mat) : Mat := List.zipWith (fun x y => x ++ y) a b

/-- `torch.cat([a, b], dim=2)` on 3-D tensors: concatenate the innermost
vectors position by position. -/
def cat3dim2 (a b : Ten3) : Ten3 :=
  List.zipWith (List.zipWith (fun x y => x ++ y)) a b

/-- `torch.cat([a, b], 1)` on 3-D tensors: concatenate the token lists of
each sample. -/
def cat3dim1 (a b : Ten3) : Ten3 := List.zipWith (fun x y => x ++ y) a b

/-- `v.unsqueeze(1).expand_as(like)`: broadcast each sample's vector along
the sequence axis of `like`. -/
def unsqueezeExpandAs (v : Mat) (like : Ten3) : Ten3 :=
  List.zipWith (fun sample hv => sample.map (fun _ => hv)) like v

/-- Python negative indexing `t[-k]` on the outermost axis of a 3-D tensor
(empty 2-D tensor when out of range). -/
def negGet (t : Ten3) (k : Nat) : Mat := t.getD (t.length - k) []

/-- `t.permute(1, 0, 2)` for a rectangular 3-D tensor whose middle axis has
extent `s`: swap the two outermost axes. -/
def permute102 (t : Ten3) (s : Nat) : Ten3 :=
  (List.range s).map (fun i => t.map (fun sample => sample.getD i []))

/-- String lowercasing, `str.lower()`. -/
def pyLower (s : String) : String := String.mk (s.data.map Char.toLower)

instance {ε α : Type} [DecidableEq ε] [DecidableEq α] :
    DecidableEq (Except ε α) := fun a b =>
  match a, b with
  | Except.ok x, Except.ok y =>
    match decEq x y with
    | isTrue h => isTrue (by rw [h])
    | isFalse h => isFalse (by intro c; injection c; contradiction)
  | Except.ok _, Except.error _ => isFalse (fun c => Except.noConfusion c)
  | Except.error _, Except.ok _ => isFalse (fun c => Except.noConfusion c)
  | Except.error e, Except.error f =>
    match decEq e f with
    | isTrue h => isTrue (by rw [h])
    | isFalse h => isFalse (by intro c; injection c; contradiction)

/-- Sequential `map` over a fallible function, propagating the first raised
error (how Python evaluates a loop of tensor ops). -/
def mapME (f : α → Except PyErr β) : List α → Except PyErr (List β)
  | [] => Except.ok []
  | a :: as =>
    match f a with
    | Except.error e => Except.error e
    | Except.ok b =>
      match mapME f as with
      | Except.error e => Except.error e
      | Except.ok bs => Except.ok (b :: bs)

/-- A `numpy` array: rectangular data plus a dtype tag. -/
structure NDArray where
  data : List (List ℚ)
  dtype : String
deriving DecidableEq, Repr

/-- `arr.shape[0]`. -/
def NDArray.shape0 (a : NDArray) : Nat := a.data.length

/-- `arr.shape[1]`. -/
def NDArray.shape1 (a : NDArray) : Nat := (a.data.headD []).length

/-- Modelled from the spec: the feed-forward head (`MLP`, a repository file
not under `src/`) is a black-box collaborator that, given a flat vector of
the declared input width (`dims.head`), returns a transformed flat vector
whose width is the last hidden width (`dims.getLast`); its numerics are
framework-owned, so the output contents are represented by a placeholder
value.  A width mismatch is a framework shape error. -/
def mlpRun (dims : List Nat) (x : Vec) : Except PyErr Vec :=
  if x.length = dims.headD 0 then
    Except.ok (List.replicate (dims.getLastD 0) (x.foldl (· + ·) 0))
  else Except.error PyErr.shapeError

/-- Apply the feed-forward head to every sample of a batch. -/
def mlpRunMat (dims : List Nat) (m : Mat) : Except PyErr Mat :=
  mapME (mlpRun dims) m

/-- Modelled from the spec: `ContextAttention` (a repository file not under
`src/`) with `sum_along_seq=True` collapses a `(batch, seq, input_dim)`
tensor into one pooled `input_dim`-wide vector per sample, the weighted sum
of the timestep vectors under a softmax-normalized weight distribution.
The learned scores are framework-owned, so the distribution is represented
by the uniform one (softmax of equal scores).  Feeding vectors whose width
differs from the module's declared `input_dim` is a framework shape
error. -/
def contextAttentionRun (input_dim : Nat) (inp : Ten3) : Except PyErr Mat :=
  if inp.all (fun sample => sample.all (fun r => r.length = input_dim)) then
    Except.ok (inp.map (fun sample =>
      vscale (1 / (sample.length : ℚ)) (vecSum input_dim sample)))
  else Except.error PyErr.shapeError

/-! ## AttentiveRNN (`src/pytorch_widedeep/models/text/attentive_rnn.py`) -/

/-- The constructor arguments of `AttentiveRNN` that take part in the
claims (dropout rates, activation names and batch-norm flags only reach
framework modules and are omitted). -/
structure RNNConfig where
  vocab_size : Nat
  rnn_type : String
  hidden_dim : Nat
  n_layers : Nat
  bidirectional : Bool
  use_hidden_state : Bool
  padding_idx : Nat
  embed_dim : Option Nat
  embed_matrix : Option NDArray
  embed_trainable : Bool
  with_attention : Bool
  attn_concatenate : Bool
  head_hidden_dims : Option (List Nat)
deriving DecidableEq, Repr

/-- The state a successfully constructed `AttentiveRNN` carries. -/
structure RNNModel where
  cfg : RNNConfig
  warnings : List String
  /-- `word_embed.weight` (the pretrained matrix, assigned wholesale). -/
  embedWeight : Mat
  /-- the `embed_dim` returned by `_set_embeddings`, fed to the RNN as
  `input_size`. -/
  rnnInputSize : Nat
  /-- `attn_input_dim` (meaningful only when `with_attention`). -/
  attnInputDim : Nat
  /-- the widths handed to the head `MLP` (`[output_dim] + head_hidden_dims`),
  when a head is configured. -/
  mlpDims : Option (List Nat)
  output_dim : Nat
deriving DecidableEq, Repr

/-- The `ValueError` message for an unsupported `rnn_type`. -/
def rnnTypeErrMsg (t : String) : String :=
  "rnn_type must be lstm or gru, got " ++ t ++ " instead"

/-- The `AssertionError` message for a non-float32 pretrained matrix. -/
def dtypeErrMsg (d : String) : String :=
  "embed_matrix must be of dtype float32, got dtype " ++ d

/-- The `UserWarning` message for mismatched embedding dimensions. -/
def embedDimWarnMsg (d s : Nat) : String :=
  "the input embedding dimension " ++ toString d ++
    " and the dimension of the pretrained embeddings " ++ toString s ++
    " do not match. The pretrained embeddings dimension (" ++ toString s ++
    ") will be used"

/-- `AttentiveRNN._set_embeddings`.  With a pretrained matrix the dtype is
asserted to be float32, an `nn.Embedding` table is created and its weight
is then replaced wholesale by the matrix (no row-count check against
`vocab_size`), and the matrix's second dimension becomes the embedding
width.  Without a matrix the source reads the local name `embed_dim`,
which is assigned only in the `ndarray` branch of this method, so Python
raises `UnboundLocalError` there. -/
def setEmbeddings (embed_matrix : Option NDArray) : Except PyErr (Mat × Nat) :=
  match embed_matrix with
  | some M =>
    if M.dtype = "float32" then Except.ok (M.data, M.shape1)
    else Except.error (PyErr.assertionError (dtypeErrMsg M.dtype))
  | none => Except.error (PyErr.unboundLocal "embed_dim")

/-- The pure tail of `AttentiveRNN.__init__` once validation and
`_set_embeddings` have succeeded: the warning list, the attention input
width, the head widths and `output_dim`, computed exactly as in the
source. -/
def buildRNN (cfg : RNNConfig) (w : Mat) (embedDim : Nat) : RNNModel :=
  let warns : List String :=
    match cfg.embed_dim, cfg.embed_matrix with
    | some d, some M =>
      if d = M.shape1 then [] else [embedDimWarnMsg d M.shape1]
    | _, _ => []
  let attnInputDim : Nat :=
    if cfg.with_attention then
      if cfg.bidirectional && cfg.attn_concatenate then cfg.hidden_dim * 4
      else if cfg.bidirectional || cfg.attn_concatenate then cfg.hidden_dim * 2
      else cfg.hidden_dim
    else 0
  let outputDim0 : Nat :=
    if cfg.with_attention then attnInputDim
    else if cfg.bidirectional then cfg.hidden_dim * 2 else cfg.hidden_dim
  match cfg.head_hidden_dims with
  | some hd =>
    let dims := outputDim0 :: hd
    { cfg := cfg, warnings := warns, embedWeight := w,
      rnnInputSize := embedDim, attnInputDim := attnInputDim,
      mlpDims := some dims, output_dim := dims.getLastD 0 }
  | none =>
    { cfg := cfg, warnings := warns, embedWeight := w,
      rnnInputSize := embedDim, attnInputDim := attnInputDim,
      mlpDims := none, output_dim := outputDim0 }

/-- `AttentiveRNN.__init__`: emit the dimension-mismatch warning, validate
`rnn_type` (raising `ValueError` otherwise), build the embeddings and the
derived dimensions. -/
def attentiveRNNInit (cfg : RNNConfig) : Except PyErr RNNModel :=
  if pyLower cfg.rnn_type ∈ ["lstm", "gru"] then
    match setEmbeddings cfg.embed_matrix with
    | Except.ok (w, d) => Except.ok (buildRNN cfg w d)
    | Except.error e => Except.error e
  else Except.error (PyErr.valueError (rnnTypeErrMsg cfg.rnn_type))

/-- Modelled from the spec: the stacked recurrent network (`nn.LSTM` /
`nn.GRU`, framework-owned) maps the embedded batch to an output sequence
of per-timestep hidden vectors of width `directions * hidden_dim` and a
final hidden state of shape `(n_layers * directions, batch, hidden_dim)`;
the numeric recurrence is out of scope, so contents are placeholders. -/
def rnnRun (cfg : RNNConfig) (embed : Ten3) : Ten3 × Ten3 :=
  let D : Nat := if cfg.bidirectional then 2 else 1
  let o := embed.map (fun sample => sample.map (fun _ => vzeros (D * cfg.hidden_dim)))
  let h := List.replicate (cfg.n_layers * D)
    (embed.map (fun _ => vzeros cfg.hidden_dim))
  (o, h)

/-- Modelled from the spec: `nn.Embedding` lookup (framework-owned): each
token index selects the corresponding row of the weight table; an index
beyond the table raises `IndexError`. -/
def embedLookup (weight : Mat) (X : List (List Nat)) : Except PyErr Ten3 :=
  mapME (fun row => mapME (fun i =>
    match weight.get? i with
    | some v => Except.ok v
    | none => Except.error PyErr.indexError) row) X

/-- `AttentiveRNN._process_rnn_outputs`, translated branch for branch.  In
the source the `else` of the attention block is indented under
`if self.attn_concatenate:`, so with attention and `attn_concatenate` but
not `bidirectional` the local `attn_inp` is never assigned
(`UnboundLocalError`), and with attention and `attn_concatenate` unset the
output is concatenated with the broadcast final hidden state. -/
def processRnnOutputs (m : RNNModel) (output hidden : Ten3) : Except PyErr Mat :=
  if m.cfg.with_attention then
    let attnInp : Option Ten3 :=
      if m.cfg.attn_concatenate then
        if m.cfg.bidirectional then
          let biHidden := cat2dim1 (negGet hidden 2) (negGet hidden 1)
          some (cat3dim2 output (unsqueezeExpandAs biHidden output))
        else none
      else
        some (cat3dim2 output (unsqueezeExpandAs (negGet hidden 1) output))
    match attnInp with
    | some inp => contextAttentionRun m.attnInputDim inp
    | none => Except.error (PyErr.unboundLocal "attn_inp")
  else
    let output2 := permute102 output ((output.headD []).length)
    if m.cfg.bidirectional then
      Except.ok (if m.cfg.use_hidden_state then
        cat2dim1 (negGet hidden 2) (negGet hidden 1)
      else output2.getLastD [])
    else
      Except.ok (if m.cfg.use_hidden_state then negGet hidden 1
        else output2.getLastD [])

/-- `AttentiveRNN.forward`: embed, run the recurrent stack (dispatching on
`rnn_type`, with the unreachable fall-through leaving `o` unassigned),
select/pool the outputs, and optionally apply the head. -/
def attentiveRNNForward (m : RNNModel) (X : List (List Nat)) :
    Except PyErr Mat :=
  match embedLookup m.embedWeight X with
  | Except.error e => Except.error e
  | Except.ok embed =>
    match (if pyLower m.cfg.rnn_type = "lstm" then Except.ok (rnnRun m.cfg embed)
           else if pyLower m.cfg.rnn_type = "gru" then Except.ok (rnnRun m.cfg embed)
           else Except.error (PyErr.unboundLocal "o") :
           Except PyErr (Ten3 × Ten3)) with
    | Except.error e => Except.error e
    | Except.ok oh =>
      match processRnnOutputs m oh.1 oh.2 with
      | Except.error e => Except.error e
      | Except.ok processed =>
        match m.mlpDims with
        | some dims => mlpRunMat dims processed
        | none => Except.ok processed

/-! ## SAINT (`src/pytorch_widedeep/models/tabular/transformers/saint.py`) -/

/-- The constructor arguments of `SAINT` that take part in the claims
(dropout rates, activations, sharing/normalization flags only reach
collaborator modules and are omitted).  `column_idx` is represented by its
key list. -/
structure SAINTConfig where
  column_idx : List String
  cat_embed_input : Option (List (String × Nat))
  continuous_cols : Option (List String)
  input_dim : Nat
  n_heads : Nat
  n_blocks : Nat
  mlp_hidden_dims : Option (List Nat)
deriving DecidableEq, Repr

/-- The state a constructed `SAINT` carries (its `__init__` raises no
errors of its own). -/
structure SAINTModel where
  cfg : SAINTConfig
  with_cls_token : Bool
  n_cat : Nat
  n_cont : Nat
  n_feats : Nat
  /-- the widths handed to `transformer_mlp`
  (`[attn_output_dim] + mlp_hidden_dims` or the default). -/
  mlpDims : List Nat
  output_dim : Nat
deriving DecidableEq, Repr

/-- `SAINT.__init__`: the flag, count and width bookkeeping.  Note the
Python-falsy test `if not mlp_hidden_dims` treats both `None` and the
empty list as absent. -/
def saintInit (cfg : SAINTConfig) : SAINTModel :=
  let with_cls := "cls_token" ∈ cfg.column_idx
  let n_cat := match cfg.cat_embed_input with
    | some l => l.length
    | none => 0
  let n_cont := match cfg.continuous_cols with
    | some l => l.length
    | none => 0
  let n_feats := n_cat + n_cont
  let attnOutputDim := if with_cls then cfg.input_dim else n_feats * cfg.input_dim
  let dims : List Nat :=
    match cfg.mlp_hidden_dims with
    | none => [attnOutputDim, attnOutputDim * 4, attnOutputDim * 2]
    | some [] => [attnOutputDim, attnOutputDim * 4, attnOutputDim * 2]
    | some l => attnOutputDim :: l
  { cfg := cfg, with_cls_token := with_cls, n_cat := n_cat, n_cont := n_cont,
    n_feats := n_feats, mlpDims := dims, output_dim := dims.getLastD 0 }

/-- Modelled from the spec: `SameSizeCatAndContEmbeddings` (a repository
file not under `src/`) returns two optional token tensors of matching
embedding width: one token per categorical column when categorical input
is configured, one per continuous column when continuous columns are
configured, `None` otherwise; the learned embedding values are
framework-owned, so contents are placeholders. -/
def sameSizeCatAndContEmbeddings (m : SAINTModel) (X : Mat) :
    Option Ten3 × Option Ten3 :=
  let xcat := if m.cfg.cat_embed_input.isSome then
    some (X.map (fun _ => List.replicate m.n_cat (vzeros m.cfg.input_dim)))
  else none
  let xcont := if m.cfg.continuous_cols.isSome then
    some (X.map (fun _ => List.replicate m.n_cont (vzeros m.cfg.input_dim)))
  else none
  (xcat, xcont)

/-- The token-assembly prelude of `SAINT.forward`: `x` is assigned from
`x_cat`, then possibly concatenated with `x_cont` along the token axis;
when both are `None` the local `x` is never assigned. -/
def saintTokens (m : SAINTModel) (X : Mat) : Option Ten3 :=
  let pair := sameSizeCatAndContEmbeddings m X
  match pair.1, pair.2 with
  | some xc, some xn => some (cat3dim1 xc xn)
  | some xc, none => some xc
  | none, some xn => some xn
  | none, none => none

/-- Constant 4-D tensor of shape `(a, b, c, d)`. -/
def mk4 (a b c d : Nat) (v : ℚ) : Ten4 :=
  List.replicate a (List.replicate b (List.replicate c (List.replicate d v)))

/-- Modelled from the spec: one `SaintEncoder` block (a repository file not
under `src/`) is dimension-preserving on the token tensor and records two
attention-weight tensors: column attention of shape
`(batch, heads, features, features)` and row attention of shape
`(1, heads, batch, batch)`, each row softmax-normalized (represented by
the uniform distribution, the numerics being framework-owned). -/
def saintEncoderRun (n_heads n_feats : Nat) (x : Ten3) :
    Ten3 × (Ten4 × Ten4) :=
  let batch := x.length
  (x, (mk4 batch n_heads n_feats n_feats (1 / (n_feats : ℚ)),
       mk4 1 n_heads batch batch (1 / (batch : ℚ))))

/-- `transformer_blks`: run `n` SAINT blocks in sequence, collecting each
block's `(col_attn.attn_weights, row_attn.attn_weights)` pair in block
order (as the `attention_weights` property later reads them). -/
def saintBlocks (n_heads n_feats : Nat) : Nat → Ten3 → Ten3 × List (Ten4 × Ten4)
  | 0, x => (x, [])
  | Nat.succ n, x =>
    let r := saintEncoderRun n_heads n_feats x
    let rest := saintBlocks n_heads n_feats n r.1
    (rest.1, r.2 :: rest.2)

/-- The reduction step of `SAINT.forward`: keep only the summary token
(`x[:, 0, :]`) when `cls_token` is in the schema, otherwise flatten the
full token sequence (`x.flatten(1)`). -/
def saintPool (m : SAINTModel) (x : Ten3) : Mat :=
  if m.with_cls_token then x.map (fun s => s.getD 0 [])
  else x.map (fun s => s.flatten)

/-- `SAINT.forward`: assemble the token tensor (failing with
`UnboundLocalError` when the composer yields neither tensor), run the
transformer blocks, reduce, and apply the MLP.  The collected per-block
attention weights are returned alongside the output, which is what the
`attention_weights` property exposes after the pass. -/
def saintForward (m : SAINTModel) (X : Mat) :
    Except PyErr (Mat × List (Ten4 × Ten4)) :=
  match saintTokens m X with
  | none => Except.error (PyErr.unboundLocal "x")
  | some x =>
    let br := saintBlocks m.cfg.n_heads m.n_feats m.cfg.n_blocks x
    match mlpRunMat m.mlpDims (saintPool m br.1) with
    | Except.ok out => Except.ok (out, br.2)
    | Except.error e => Except.error e

/-- Shape predicate for a 4-D tensor. -/
def shape4 (t : Ten4) (a b c d : Nat) : Prop :=
  t.length = a ∧ ∀ u ∈ t, u.length = b ∧ ∀ v ∈ u, v.length = c ∧
    ∀ w ∈ v, w.length = d

instance (t : Ten4) (a b c d : Nat) : Decidable (shape4 t a b c d) := by
  unfold shape4; infer_instance

/-! ## Concrete instances (used by witnesses and counterexamples) -/

/-- A 2 x 2 float32 pretrained embedding matrix. -/
def M22 : NDArray := { data := [[1, 0], [0, 1]], dtype := "float32" }

/-- The same matrix with the wrong dtype. -/
def M22f64 : NDArray := { data := [[1, 0], [0, 1]], dtype := "float64" }

/-- A 2 x 3 float32 pretrained matrix (three-column embedding). -/
def M23 : NDArray := { data := [[1, 0, 0], [0, 1, 0]], dtype := "float32" }

/-- A baseline valid `AttentiveRNN` configuration: unidirectional LSTM with
pretrained embeddings, no attention, no head. -/
def rnnCfgBase : RNNConfig :=
  { vocab_size := 2, rnn_type := "lstm", hidden_dim := 2, n_layers := 1,
    bidirectional := false, use_hidden_state := true, padding_idx := 1,
    embed_dim := none, embed_matrix := some M22, embed_trainable := true,
    with_attention := false, attn_concatenate := true,
    head_hidden_dims := none }

/-- Fallback model used to extract the payload of a known-`ok` result. -/
def dfltRNNModel : RNNModel :=
  { cfg := rnnCfgBase, warnings := [], embedWeight := [], rnnInputSize := 0,
    attnInputDim := 0, mlpDims := none, output_dim := 0 }

/-- Extract the model from a construction known to succeed. -/
def getOkRNN (e : Except PyErr RNNModel) : RNNModel :=
  match e with
  | Except.ok m => m
  | Except.error _ => dfltRNNModel

/-- An unsupported recurrent type. -/
def rnnCfgBad : RNNConfig := { rnnCfgBase with rnn_type := "rnn" }

/-- A successfully constructed baseline model. -/
def mR1 : RNNModel := getOkRNN (attentiveRNNInit rnnCfgBase)

/-- Attention enabled, concatenation policy set, unidirectional: the branch
whose `attn_inp` is never assigned in the source. -/
def rnnCfgC2a : RNNConfig := { rnnCfgBase with with_attention := true }

/-- Attention enabled, concatenation policy unset. -/
def rnnCfgC2b : RNNConfig :=
  { rnnCfgBase with with_attention := true, attn_concatenate := false }

def mC2a : RNNModel := getOkRNN (attentiveRNNInit rnnCfgC2a)

def mC2b : RNNModel := getOkRNN (attentiveRNNInit rnnCfgC2b)

/-- Attention enabled, concatenation set, bidirectional: the only attention
configuration whose forward completes. -/
def rnnCfgC2c : RNNConfig :=
  { rnnCfgBase with with_attention := true, bidirectional := true }

def mC2c : RNNModel := getOkRNN (attentiveRNNInit rnnCfgC2c)

/-- Requested embedding width 3 clashing with the pretrained width 2. -/
def rnnCfgC8 : RNNConfig := { rnnCfgBase with embed_dim := some 3 }

/-- Row count 2 of the pretrained matrix inconsistent with `vocab_size` 3. -/
def rnnCfgC9 : RNNConfig := { rnnCfgBase with vocab_size := 3 }

def mC9 : RNNModel := getOkRNN (attentiveRNNInit rnnCfgC9)

/-- Pretrained matrix with a non-float32 dtype. -/
def rnnCfgC9bad : RNNConfig := { rnnCfgBase with embed_matrix := some M22f64 }

/-- An `AttentiveRNN` with a head, bidirectional, attention and
concatenation (for output-width witnesses). -/
def rnnCfgHead : RNNConfig :=
  { rnnCfgBase with bidirectional := true, with_attention := true, head_hidden_dims := some [3] }

def mHead : RNNModel := getOkRNN (attentiveRNNInit rnnCfgHead)

/-- The spec's SAINT scenario: 5 columns (4 categorical of 4 categories
each, 1 continuous), model dimension 32, 2 blocks, 8 heads, no summary
token. -/
def saintCfgScen : SAINTConfig :=
  { column_idx := ["a", "b", "c", "d", "e"],
    cat_embed_input := some [("a", 4), ("b", 4), ("c", 4), ("d", 4)],
    continuous_cols := some ["e"],
    input_dim := 32, n_heads := 8, n_blocks := 2, mlp_hidden_dims := none }

def saintScen : SAINTModel := saintInit saintCfgScen

/-- A batch of 5 samples with 5 columns. -/
def X55 : Mat := List.replicate 5 (List.replicate 5 0)

/-- A small SAINT configuration (1 categorical + 1 continuous column). -/
def saintCfgSmall : SAINTConfig :=
  { column_idx := ["a", "e"], cat_embed_input := some [("a", 3)],
    continuous_cols := some ["e"],
    input_dim := 2, n_heads := 1, n_blocks := 1, mlp_hidden_dims := none }

def saintSmall : SAINTModel := saintInit saintCfgSmall

/-- The small SAINT configuration with a summary-token column. -/
def saintCfgCls : SAINTConfig :=
  { saintCfgSmall with column_idx := ["cls_token", "a", "e"], cat_embed_input := some [("cls_token", 1), ("a", 3)] }

def saintCls : SAINTModel := saintInit saintCfgCls

/-- A SAINT configuration with neither categorical nor continuous input. -/
def saintCfgEmpty : SAINTConfig :=
  { saintCfgSmall with cat_embed_input := none, continuous_cols := none }

/-- A batch of 2 samples with 2 columns. -/
def X22 : Mat := [[0, 1], [1, 0]]

/-- Helper to extract the payload of a known-`ok` SAINT forward pass. -/
def getOkSaint (e : Except PyErr (Mat × List (Ten4 × Ten4))) :
    Mat × List (Ten4 × Ten4) :=
  match e with
  | Except.ok p => p
  | Except.error _ => ([], [])

/-- Output and attention weights of the scenario forward pass. -/
def saintScenOut : Mat × List (Ten4 × Ten4) :=
  getOkSaint (saintForward saintScen X55)

/-- Output and attention weights of the small forward pass. -/
def saintSmallOut : Mat × List (Ten4 × Ten4) :=
  getOkSaint (saintForward saintSmall X22)

/-- Helper to extract the payload of a known-`ok` AttentiveRNN forward
pass. -/
def getOkMat (e : Except PyErr Mat) : Mat :=
  match e with
  | Except.ok p => p
  | Except.error _ => []

/-- Output of the baseline AttentiveRNN forward pass. -/
def mR1Out : Mat := getOkMat (attentiveRNNForward mR1 [[0, 1]])

/-- The token tensor assembled by the small SAINT forward pass. -/
def saintSmallTokens : Ten3 := (saintTokens saintSmall X22).getD []

/-- Output of the head-configured AttentiveRNN forward pass. -/
def mHeadOut : Mat := getOkMat (attentiveRNNForward mHead [[0, 1]])

/-! ## Helper lemmas -/

theorem vzeros_length (n : Nat) : (vzeros n).length = n := by
  simp [vzeros]

theorem getD_replicate (n : Nat) (a d : α) (i : Nat) :
    (List.replicate n a).getD i d = if i < n then a else d := by
  induction n generalizing i with
  | zero => simp [List.getD]
  | succ k ih =>
    cases i with
    | zero => simp [List.replicate]
    | succ j =>
      simp only [List.replicate, List.getD_cons_succ, ih]
      simp [Nat.add_lt_add_iff_right]

theorem getD_const_map (l : List α) (c : β) (d : β) (i : Nat)
    (h : i < l.length) : (l.map (fun _ => c)).getD i d = c := by
  induction l generalizing i with
  | nil => simp at h
  | cons a t ih =>
    cases i with
    | zero => simp
    | succ j =>
      simp only [List.length_cons] at h
      simpa using ih j (by omega)

theorem getD_pred_length (l : List α) (d : α) (hne : l ≠ []) :
    l.getD (l.length - 1) d = l.getLastD d := by
  induction l with
  | nil => simp at hne
  | cons a t ih =>
    cases t with
    | nil => simp [List.getD]
    | cons b t2 =>
      have h1 : (a :: b :: t2).length - 1 = t2.length + 1 := by simp
      rw [h1, List.getD_cons_succ, List.getLastD_eq_getLast?,
        List.getLast?_cons_cons, ← List.getLastD_eq_getLast?]
      have := ih (by simp)
      simpa using this

theorem range_map_getLastD (f : Nat → α) (s : Nat) (d : α) (hs : 1 ≤ s) :
    ((List.range s).map f).getLastD d = f (s - 1) := by
  obtain ⟨k, rfl⟩ : ∃ k, s = k + 1 := ⟨s - 1, by omega⟩
  rw [List.range_succ]
  simp

theorem vecSum_length (d : Nat) (rows : Mat)
    (h : ∀ r ∈ rows, r.length = d) : (vecSum d rows).length = d := by
  have aux : ∀ (rs : Mat) (acc : Vec), acc.length = d →
      (∀ r ∈ rs, r.length = d) →
      (rs.foldl (fun acc r => List.zipWith (· + ·) acc r) acc).length = d := by
    intro rs
    induction rs with
    | nil => intro acc hacc _; simpa using hacc
    | cons r t ih =>
      intro acc hacc hall
      simp only [List.foldl_cons]
      exact ih _ (by
        simp [List.length_zipWith, hacc, hall r (by simp)])
        (fun x hx => hall x (by simp [hx]))
  exact aux rows (vzeros d) (vzeros_length d) h

theorem mapME_ok_length {f : α → Except PyErr β} {xs : List α} {ys : List β}
    (h : mapME f xs = Except.ok ys) : ys.length = xs.length := by
  induction xs generalizing ys with
  | nil => simp [mapME] at h; simp [← h]
  | cons a t ih =>
    simp only [mapME] at h
    cases hfa : f a with
    | error e => rw [hfa] at h; simp at h
    | ok b =>
      rw [hfa] at h
      cases hft : mapME f t with
      | error e => rw [hft] at h; simp at h
      | ok bs =>
        rw [hft] at h
        simp at h
        subst h
        simp [ih hft]

theorem mapME_ok_mem {f : α → Except PyErr β} {xs : List α} {ys : List β}
    (h : mapME f xs = Except.ok ys) :
    ∀ y ∈ ys, ∃ x ∈ xs, f x = Except.ok y := by
  induction xs generalizing ys with
  | nil =>
    simp only [mapME, Except.ok.injEq] at h
    subst h
    simp
  | cons a t ih =>
    simp only [mapME] at h
    cases hfa : f a with
    | error e => rw [hfa] at h; simp at h
    | ok b =>
      rw [hfa] at h
      cases hft : mapME f t with
      | error e => rw [hft] at h; simp at h
      | ok bs =>
        rw [hft] at h
        simp at h
        subst h
        intro y hy
        rcases List.mem_cons.mp hy with hy | hy
        · exact ⟨a, by simp, by rw [hfa, hy]⟩
        · rcases ih hft y hy with ⟨x, hx, hfx⟩
          exact ⟨x, by simp [hx], hfx⟩

theorem mapME_ok_forall₂ {f : α → Except PyErr β} {xs : List α} {ys : List β}
    (h : mapME f xs = Except.ok ys) :
    List.Forall₂ (fun x y => f x = Except.ok y) xs ys := by
  induction xs generalizing ys with
  | nil => simp [mapME] at h; simp [← h]
  | cons a t ih =>
    simp only [mapME] at h
    cases hfa : f a with
    | error e => rw [hfa] at h; simp at h
    | ok b =>
      rw [hfa] at h
      cases hft : mapME f t with
      | error e => rw [hft] at h; simp at h
      | ok bs =>
        rw [hft] at h
        simp at h
        subst h
        exact List.Forall₂.cons hfa (ih hft)

theorem mlpRun_ok_length {dims : List Nat} {x y : Vec}
    (h : mlpRun dims x = Except.ok y) : y.length = dims.getLastD 0 := by
  unfold mlpRun at h
  split at h
  · simp at h; simp [← h]
  · simp at h

theorem ctxAttn_ok_width {d : Nat} {inp : Ten3} {out : Mat}
    (h : contextAttentionRun d inp = Except.ok out) :
    ∀ r ∈ out, r.length = d := by
  unfold contextAttentionRun at h
  split at h
  case isTrue hall =>
    simp only [Except.ok.injEq] at h
    subst h
    intro r hr
    rcases List.mem_map.mp hr with ⟨sample, hmem, rfl⟩
    have hrows : ∀ row ∈ sample, row.length = d := by
      intro row hrow
      have h1 := List.all_eq_true.mp hall sample hmem
      have h2 := List.all_eq_true.mp h1 row hrow
      exact of_decide_eq_true h2
    simp [vscale, vecSum_length d sample hrows]
  case isFalse => simp at h

theorem shape4_mk4 (a b c d : Nat) (v : ℚ) : shape4 (mk4 a b c d v) a b c d := by
  refine ⟨by simp [mk4], ?_⟩
  intro u hu
  have hu' := List.eq_of_mem_replicate hu
  subst hu'
  refine ⟨by simp, ?_⟩
  intro w hw
  have hw' := List.eq_of_mem_replicate hw
  subst hw'
  refine ⟨by simp, ?_⟩
  intro z hz
  have hz' := List.eq_of_mem_replicate hz
  subst hz'
  simp

theorem saintBlocks_fst (nh nf n : Nat) (x : Ten3) :
    (saintBlocks nh nf n x).1 = x := by
  induction n generalizing x with
  | zero => rfl
  | succ k ih => simpa [saintBlocks, saintEncoderRun] using ih x

theorem saintBlocks_len (nh nf n : Nat) (x : Ten3) :
    (saintBlocks nh nf n x).2.length = n := by
  induction n generalizing x with
  | zero => rfl
  | succ k ih => simpa [saintBlocks] using ih _

theorem saintBlocks_mem (nh nf n : Nat) (x : Ten3) :
    ∀ p ∈ (saintBlocks nh nf n x).2,
      p = (mk4 x.length nh nf nf (1 / (nf : ℚ)),
           mk4 1 nh x.length x.length (1 / (x.length : ℚ))) := by
  induction n generalizing x with
  | zero => simp [saintBlocks]
  | succ k ih =>
    intro p hp
    simp only [saintBlocks, saintEncoderRun] at hp
    rcases List.mem_cons.mp hp with hp | hp
    · exact hp
    · exact ih x p hp

theorem mapME_error_from {f : α → Except PyErr β} {xs : List α} {e : PyErr}
    (h : mapME f xs = Except.error e) : ∃ x ∈ xs, f x = Except.error e := by
  induction xs with
  | nil => simp [mapME] at h
  | cons a t ih =>
    simp only [mapME] at h
    cases hfa : f a with
    | error e2 =>
      rw [hfa] at h
      simp at h
      exact ⟨a, by simp, by rw [hfa, h]⟩
    | ok b =>
      rw [hfa] at h
      cases hft : mapME f t with
      | error e2 =>
        rw [hft] at h
        simp at h
        rcases ih (by rw [hft, h]) with ⟨x, hx, hfx⟩
        exact ⟨x, by simp [hx], hfx⟩
      | ok bs => rw [hft] at h; simp at h

theorem embedLookup_error {w : Mat} {X : List (List Nat)} {e : PyErr}
    (h : embedLookup w X = Except.error e) : e = PyErr.indexError := by
  rcases mapME_error_from h with ⟨row, _, hrow⟩
  rcases mapME_error_from hrow with ⟨i, _, hi⟩
  cases hget : w.get? i with
  | some v => rw [hget] at hi; simp at hi
  | none =>
    rw [hget] at hi
    simp only [Except.error.injEq] at hi
    exact hi.symm

theorem ctxAttn_error {d : Nat} {inp : Ten3} {e : PyErr}
    (h : contextAttentionRun d inp = Except.error e) : e = PyErr.shapeError := by
  unfold contextAttentionRun at h
  split at h
  · simp at h
  · simp only [Except.error.injEq] at h; exact h.symm

theorem mlpRun_error {dims : List Nat} {x : Vec} {e : PyErr}
    (h : mlpRun dims x = Except.error e) : e = PyErr.shapeError := by
  unfold mlpRun at h
  split at h
  · simp at h
  · simp only [Except.error.injEq] at h; exact h.symm

theorem mlpRunMat_error {dims : List Nat} {m : Mat} {e : PyErr}
    (h : mlpRunMat dims m = Except.error e) : e = PyErr.shapeError := by
  rcases mapME_error_from h with ⟨x, _, hx⟩
  exact mlpRun_error hx

theorem processRnnOutputs_error {m : RNNModel} {o hid : Ten3} {e : PyErr}
    (h : processRnnOutputs m o hid = Except.error e) :
    e = PyErr.shapeError ∨ e = PyErr.unboundLocal "attn_inp" := by
  unfold processRnnOutputs at h
  cases ha : m.cfg.with_attention
  · simp only [ha, Bool.false_eq_true, if_false] at h
    split at h <;> simp at h
  · simp only [ha, if_true] at h
    cases hc : m.cfg.attn_concatenate
    · simp only [hc, Bool.false_eq_true, if_false] at h
      exact Or.inl (ctxAttn_error h)
    · simp only [hc, if_true] at h
      cases hb : m.cfg.bidirectional
      · simp only [hb, Bool.false_eq_true, if_false] at h
        simp only [Except.error.injEq] at h
        exact Or.inr h.symm
      · simp only [hb, if_true] at h
        exact Or.inl (ctxAttn_error h)

theorem buildRNN_cfg (cfg : RNNConfig) (w : Mat) (d : Nat) :
    (buildRNN cfg w d).cfg = cfg := by
  rcases hh : cfg.head_hidden_dims with _ | hd <;> simp [buildRNN, hh]

theorem setEmbeddings_ok_elim {em : Option NDArray} {wd : Mat × Nat}
    (h : setEmbeddings em = Except.ok wd) :
    ∃ M, em = some M ∧ M.dtype = "float32" ∧ wd = (M.data, M.shape1) := by
  cases em with
  | none => simp [setEmbeddings] at h
  | some M =>
    simp only [setEmbeddings] at h
    split at h
    next hd =>
      simp only [Except.ok.injEq] at h
      exact ⟨M, rfl, hd, h.symm⟩
    next => simp at h

theorem attentiveRNNInit_ok_elim {cfg : RNNConfig} {m : RNNModel}
    (h : attentiveRNNInit cfg = Except.ok m) :
    pyLower cfg.rnn_type ∈ ["lstm", "gru"] ∧
    ∃ M, cfg.embed_matrix = some M ∧ M.dtype = "float32" ∧
      m = buildRNN cfg M.data M.shape1 := by
  unfold attentiveRNNInit at h
  split at h
  case isTrue hmem =>
    refine ⟨hmem, ?_⟩
    cases hse : setEmbeddings cfg.embed_matrix with
    | error e => rw [hse] at h; simp at h
    | ok wd =>
      obtain ⟨w, d⟩ := wd
      rw [hse] at h
      simp only [Except.ok.injEq] at h
      rcases setEmbeddings_ok_elim hse with ⟨M, hM, hdt, hwd⟩
      simp only [Prod.mk.injEq] at hwd
      exact ⟨M, hM, hdt, by rw [← h, hwd.1, hwd.2]⟩
  case isFalse => simp at h

theorem forall₂_mem_right {R : α → β → Prop} {xs : List α} {ys : List β}
    (h : List.Forall₂ R xs ys) : ∀ y ∈ ys, ∃ x ∈ xs, R x y := by
  induction h with
  | nil => simp
  | cons hr _ ih =>
    intro y hy
    rcases List.mem_cons.mp hy with rfl | hy
    · exact ⟨_, by simp, hr⟩
    · rcases ih y hy with ⟨x, hx, hxy⟩
      exact ⟨x, by simp [hx], hxy⟩

theorem embedLookup_ok_lengths {w : Mat} {X : List (List Nat)} {embed : Ten3}
    (h : embedLookup w X = Except.ok embed) :
    ∀ es ∈ embed, ∃ row ∈ X, es.length = row.length := by
  have h2 := mapME_ok_forall₂ h
  intro es hes
  rcases forall₂_mem_right h2 es hes with ⟨row, hrow, hme⟩
  exact ⟨row, hrow, mapME_ok_length hme⟩

theorem getLastD_mem (l : List α) (d : α) (h : l ≠ []) : l.getLastD d ∈ l := by
  induction l with
  | nil => simp at h
  | cons a t ih =>
    cases t with
    | nil => simp
    | cons b t2 =>
      rw [List.getLastD_eq_getLast?, List.getLast?_cons_cons,
        ← List.getLastD_eq_getLast?]
      exact List.mem_cons_of_mem a (ih (by simp))

theorem negGet_replicate (n : Nat) (a : Mat) (k : Nat) (hk : 1 ≤ k) :
    negGet (List.replicate n a) k = if 1 ≤ n then a else [] := by
  unfold negGet
  rw [List.length_replicate, getD_replicate]
  by_cases hn : 1 ≤ n
  · rw [if_pos (by omega), if_pos hn]
  · rw [if_neg (by omega), if_neg hn]

theorem permute102_getLastD (o : Ten3) (s : Nat)
    (hrect : ∀ r ∈ o, r.length = s) (hs : 1 ≤ s) :
    (permute102 o ((o.headD []).length)).getLastD [] =
      o.map (fun sample => sample.getLastD []) := by
  cases o with
  | nil => simp [permute102]
  | cons a t =>
    have ha : a.length = s := hrect a (by simp)
    simp only [List.headD_cons]
    rw [ha]
    unfold permute102
    rw [range_map_getLastD _ s _ hs]
    apply List.map_congr_left
    intro sample hmem
    have hlen := hrect sample hmem
    have hne : sample ≠ [] := by
      intro hnil
      rw [hnil] at hlen
      simp at hlen
      omega
    rw [← hlen]
    exact getD_pred_length sample [] hne

/-- The attention-disabled output-selection policy of
`_process_rnn_outputs`, in the form of the branch table in the spec. -/
theorem processRnnOutputs_no_attn (m : RNNModel) (o hid : Ten3) (s : Nat)
    (hatt : m.cfg.with_attention = false)
    (hrect : ∀ r ∈ o, r.length = s) (hs : 1 ≤ s) :
    processRnnOutputs m o hid = Except.ok
      (if m.cfg.use_hidden_state then
        (if m.cfg.bidirectional then cat2dim1 (negGet hid 2) (negGet hid 1)
         else negGet hid 1)
       else o.map (fun sample => sample.getLastD [])) := by
  unfold processRnnOutputs
  simp only [hatt, Bool.false_eq_true, if_false]
  cases hb : m.cfg.bidirectional <;> cases hu : m.cfg.use_hidden_state <;>
    simp only [hb, hu, if_true, Bool.false_eq_true, if_false,
      Except.ok.injEq] <;>
    exact permute102_getLastD o s hrect hs

theorem processRnnOutputs_attn_width {m : RNNModel} {o hid : Ten3} {po : Mat}
    (ha : m.cfg.with_attention = true)
    (h : processRnnOutputs m o hid = Except.ok po) :
    ∀ r ∈ po, r.length = m.attnInputDim := by
  unfold processRnnOutputs at h
  simp only [ha, if_true] at h
  cases hc : m.cfg.attn_concatenate
  · simp only [hc, Bool.false_eq_true, if_false] at h
    exact ctxAttn_ok_width h
  · cases hb : m.cfg.bidirectional
    · simp only [hc, if_true, hb, Bool.false_eq_true, if_false] at h
      simp at h
    · simp only [hc, if_true, hb] at h
      exact ctxAttn_ok_width h

theorem buildRNN_mlp_some {cfg : RNNConfig} {w : Mat} {d : Nat}
    {dims : List Nat} (h : (buildRNN cfg w d).mlpDims = some dims) :
    (buildRNN cfg w d).output_dim = dims.getLastD 0 := by
  rcases hh : cfg.head_hidden_dims with _ | hd
  · rw [show (buildRNN cfg w d).mlpDims = none by simp [buildRNN, hh]] at h
    simp at h
  · have h2 : (buildRNN cfg w d).output_dim =
        ((buildRNN cfg w d).mlpDims.getD []).getLastD 0 := by
      simp [buildRNN, hh]
    rw [h2, h]
    rfl

theorem saintInit_output_mlp (cfg : SAINTConfig) :
    (saintInit cfg).output_dim = (saintInit cfg).mlpDims.getLastD 0 := by
  rcases hmm : cfg.mlp_hidden_dims with _ | l
  · simp [saintInit, hmm]
  · cases l <;> simp [saintInit, hmm]

theorem saintInit_mlp_head (cfg : SAINTConfig) :
    (saintInit cfg).mlpDims.headD 0 =
      (if (saintInit cfg).with_cls_token then cfg.input_dim
       else (saintInit cfg).n_feats * cfg.input_dim) := by
  rcases hmm : cfg.mlp_hidden_dims with _ | l
  · simp [saintInit, hmm]
  · cases l <;> simp [saintInit, hmm]

theorem saintTokens_length {m : SAINTModel} {X : Mat} {x : Ten3}
    (h : saintTokens m X = some x) : x.length = X.length := by
  unfold saintTokens sameSizeCatAndContEmbeddings at h
  cases hc : m.cfg.cat_embed_input.isSome <;>
    cases hn : m.cfg.continuous_cols.isSome <;>
    simp only [hc, hn, Bool.false_eq_true, if_false, if_true] at h
  · simp at h
  · simp only [Option.some.injEq] at h
    subst h
    simp
  · simp only [Option.some.injEq] at h
    subst h
    simp
  · simp only [Option.some.injEq] at h
    subst h
    simp [cat3dim1, List.length_zipWith]

/-- Widths of the attention-disabled selection result: every selected
vector is `hidden_dim` wide, doubled when bidirectional. -/
theorem rnn_no_attn_widths (cfg : RNNConfig) (embed : Ten3) (po : Mat)
    (sX : Nat) (helen : ∀ es ∈ embed, es.length = sX) (hs : 1 ≤ sX)
    (hpo : po = (if cfg.use_hidden_state then
        (if cfg.bidirectional then
          cat2dim1 (negGet (rnnRun cfg embed).2 2) (negGet (rnnRun cfg embed).2 1)
         else negGet (rnnRun cfg embed).2 1)
       else (rnnRun cfg embed).1.map (fun sample => sample.getLastD []))) :
    ∀ v ∈ po, v.length =
      (if cfg.bidirectional then cfg.hidden_dim * 2 else cfg.hidden_dim) := by
  intro v hv
  rw [hpo] at hv
  have hhid : (rnnRun cfg embed).2 =
      List.replicate (cfg.n_layers * (if cfg.bidirectional then 2 else 1))
        (embed.map (fun _ => vzeros cfg.hidden_dim)) := rfl
  have ho : (rnnRun cfg embed).1 =
      embed.map (fun sample => sample.map
        (fun _ => vzeros ((if cfg.bidirectional then 2 else 1) * cfg.hidden_dim))) := rfl
  cases hu : cfg.use_hidden_state <;> cases hb : cfg.bidirectional <;>
    simp only [hu, hb, if_true, Bool.false_eq_true, if_false] at hv ⊢
  · -- last timestep, unidirectional
    rw [ho] at hv
    simp only [hb, Bool.false_eq_true, if_false] at hv
    rcases List.mem_map.mp hv with ⟨sample, hsm, rfl⟩
    rcases List.mem_map.mp hsm with ⟨es, hes, rfl⟩
    have hne : es.map (fun _ => vzeros (1 * cfg.hidden_dim)) ≠ [] := by
      have := helen es hes
      intro hc
      simp at hc
      rw [hc] at this
      simp at this
      omega
    have hmem := getLastD_mem _ ([] : Vec) hne
    rcases List.mem_map.mp hmem with ⟨_, _, hvz⟩
    rw [← hvz]
    simp [vzeros]
  · -- last timestep, bidirectional
    rw [ho] at hv
    simp only [hb, if_true] at hv
    rcases List.mem_map.mp hv with ⟨sample, hsm, rfl⟩
    rcases List.mem_map.mp hsm with ⟨es, hes, rfl⟩
    have hne : es.map (fun _ => vzeros (2 * cfg.hidden_dim)) ≠ [] := by
      have := helen es hes
      intro hc
      simp at hc
      rw [hc] at this
      simp at this
      omega
    have hmem := getLastD_mem _ ([] : Vec) hne
    rcases List.mem_map.mp hmem with ⟨_, _, hvz⟩
    rw [← hvz]
    simp [vzeros]
    omega
  · -- final hidden state, unidirectional
    rw [hhid, negGet_replicate _ _ 1 (by omega)] at hv
    simp only [hb, Bool.false_eq_true, if_false] at hv
    split at hv
    · rcases List.mem_map.mp hv with ⟨_, _, rfl⟩
      simp [vzeros]
    · simp at hv
  · -- concatenated final hidden states, bidirectional
    rw [hhid, negGet_replicate _ _ 2 (by omega), negGet_replicate _ _ 1 (by omega)] at hv
    simp only [hb, if_true] at hv
    unfold cat2dim1 at hv
    rw [List.zipWith_same] at hv
    rcases List.mem_map.mp hv with ⟨r, hr, rfl⟩
    split at hr
    · rcases List.mem_map.mp hr with ⟨_, _, rfl⟩
      simp [vzeros]
      omega
    · simp at hr

/-! ## Claim theorems -/

/-- C6: with attention disabled, the selection result is the final hidden
state (the concatenation of the two direction-final hidden states when
bidirectional, the single final hidden state otherwise) when
`use_hidden_state` holds, and the last timestep of the output sequence
otherwise. -/
theorem claim_C6 (m : RNNModel) (o hid : Ten3) (s : Nat)
    (hatt : m.cfg.with_attention = false)
    (hrect : ∀ r ∈ o, r.length = s) (hs : 1 ≤ s) :
    processRnnOutputs m o hid = Except.ok
      (if m.cfg.use_hidden_state then
        (if m.cfg.bidirectional then cat2dim1 (negGet hid 2) (negGet hid 1)
         else negGet hid 1)
       else o.map (fun sample => sample.getLastD [])) :=
  processRnnOutputs_no_attn m o hid s hatt hrect hs

/-- C6 witness: the baseline model (no attention, unidirectional,
`use_hidden_state`) on a concrete output sequence and hidden state. -/
theorem claim_C6_witness :
    processRnnOutputs mR1 [[vzeros 2, vzeros 2]] [[vzeros 2]] = Except.ok
      (if mR1.cfg.use_hidden_state then
        (if mR1.cfg.bidirectional then
          cat2dim1 (negGet [[vzeros 2]] 2) (negGet [[vzeros 2]] 1)
         else negGet [[vzeros 2]] 1)
       else ([[vzeros 2, vzeros 2]] : Ten3).map (fun sample => sample.getLastD [])) :=
  claim_C6 mR1 [[vzeros 2, vzeros 2]] [[vzeros 2]] 2 rfl (by decide) (by decide)

/-- C1: for every valid configuration of SAINT and AttentiveRNN, every
sample vector returned by `forward` has width equal to the `output_dim`
attribute computed at construction (SAINT: last MLP hidden width;
AttentiveRNN: last head width when a head is configured, otherwise the
attention/hidden-state width determined by the `bidirectional` and
`attn_concatenate` flags). -/
theorem claim_C1 :
    (∀ (scfg : SAINTConfig) (X : Mat) (out : Mat) (ws : List (Ten4 × Ten4)),
      saintForward (saintInit scfg) X = Except.ok (out, ws) →
      ∀ v ∈ out, v.length = (saintInit scfg).output_dim) ∧
    (∀ (cfg : RNNConfig) (m : RNNModel) (X : List (List Nat)) (out : Mat),
      attentiveRNNInit cfg = Except.ok m →
      (∀ r ∈ X, r.length = (X.headD []).length) →
      1 ≤ (X.headD []).length →
      attentiveRNNForward m X = Except.ok out →
      ∀ v ∈ out, v.length = m.output_dim) := by
  constructor
  · intro scfg X out ws hfwd v hv
    unfold saintForward at hfwd
    cases ht : saintTokens (saintInit scfg) X with
    | none => rw [ht] at hfwd; simp at hfwd
    | some x =>
      rw [ht] at hfwd
      cases hmm2 : mlpRunMat (saintInit scfg).mlpDims
          (saintPool (saintInit scfg)
            (saintBlocks (saintInit scfg).cfg.n_heads (saintInit scfg).n_feats
              (saintInit scfg).cfg.n_blocks x).1) with
      | error e => simp [hmm2] at hfwd
      | ok out2 =>
        simp only [hmm2, Except.ok.injEq, Prod.mk.injEq] at hfwd
        obtain ⟨h1, -⟩ := hfwd
        subst h1
        rcases mapME_ok_mem hmm2 v hv with ⟨xrow, -, hx⟩
        rw [saintInit_output_mlp]
        exact mlpRun_ok_length hx
  · intro cfg m X out hinit hrect hs hfwd v hv
    rcases attentiveRNNInit_ok_elim hinit with ⟨hmem, M, hM, hdt, hm⟩
    have hcfg : m.cfg = cfg := by rw [hm]; exact buildRNN_cfg cfg M.data M.shape1
    have hlow : pyLower m.cfg.rnn_type = "lstm" ∨ pyLower m.cfg.rnn_type = "gru" := by
      rw [hcfg]
      simpa using hmem
    unfold attentiveRNNForward at hfwd
    cases hemb : embedLookup m.embedWeight X with
    | error e => simp [hemb] at hfwd
    | ok embed =>
      have helen : ∀ es ∈ embed, es.length = (X.headD []).length := by
        intro es hes
        rcases embedLookup_ok_lengths hemb es hes with ⟨row, hrow, hlen⟩
        rw [hlen]
        exact hrect row hrow
      have hdisp : (if pyLower m.cfg.rnn_type = "lstm" then
            Except.ok (rnnRun m.cfg embed)
          else if pyLower m.cfg.rnn_type = "gru" then
            Except.ok (rnnRun m.cfg embed)
          else Except.error (PyErr.unboundLocal "o") :
          Except PyErr (Ten3 × Ten3)) = Except.ok (rnnRun m.cfg embed) := by
        rcases hlow with hl | hl <;> simp [hl]
      cases hpo : processRnnOutputs m (rnnRun m.cfg embed).1 (rnnRun m.cfg embed).2 with
      | error e => simp [hemb, hdisp, hpo] at hfwd
      | ok po =>
        simp only [hemb, hdisp, hpo] at hfwd
        rcases hh : cfg.head_hidden_dims with _ | hd
        · -- no head configured
          have hmd : m.mlpDims = none := by rw [hm]; simp [buildRNN, hh]
          rw [hmd] at hfwd
          replace hfwd : Except.ok po = Except.ok out := hfwd
          replace hfwd : po = out := Except.ok.inj hfwd
          rw [← hfwd] at hv
          cases hatt : cfg.with_attention
          · -- attention disabled: hidden-state / last-timestep widths
            have hout : m.output_dim =
                (if cfg.bidirectional then cfg.hidden_dim * 2 else cfg.hidden_dim) := by
              rw [hm]
              simp [buildRNN, hh, hatt]
            have hattm : m.cfg.with_attention = false := by rw [hcfg]; exact hatt
            have horect : ∀ t ∈ (rnnRun m.cfg embed).1, t.length = (X.headD []).length := by
              intro t ht
              have ho : (rnnRun m.cfg embed).1 =
                  embed.map (fun sample => sample.map
                    (fun _ => vzeros ((if m.cfg.bidirectional then 2 else 1) *
                      m.cfg.hidden_dim))) := rfl
              rw [ho] at ht
              rcases List.mem_map.mp ht with ⟨es, hes, rfl⟩
              simpa using helen es hes
            have hpo2 := processRnnOutputs_no_attn m (rnnRun m.cfg embed).1
              (rnnRun m.cfg embed).2 (X.headD []).length hattm horect hs
            rw [hpo] at hpo2
            simp only [Except.ok.injEq] at hpo2
            rw [hout]
            refine rnn_no_attn_widths cfg embed po (X.headD []).length helen hs ?_ v hv
            rw [hpo2, hcfg]
          · -- attention enabled: widths from the context-attention module
            have hattm : m.cfg.with_attention = true := by rw [hcfg]; exact hatt
            have hw := processRnnOutputs_attn_width hattm hpo
            have hout : m.output_dim = m.attnInputDim := by
              rw [hm]
              simp [buildRNN, hh, hatt]
            rw [hout]
            exact hw v hv
        · -- a head is configured: widths come from the MLP
          cases hmdv : m.mlpDims with
          | none =>
            exfalso
            rw [hm] at hmdv
            simp [buildRNN, hh] at hmdv
          | some dims =>
            rw [hmdv] at hfwd
            replace hfwd : mlpRunMat dims po = Except.ok out := hfwd
            have hout : m.output_dim = dims.getLastD 0 := by
              rw [hm] at hmdv ⊢
              exact buildRNN_mlp_some hmdv
            rcases mapME_ok_mem hfwd v hv with ⟨xrow, -, hx⟩
            rw [hout]
            exact mlpRun_ok_length hx

/-- C1 witness: the SAINT scenario and two AttentiveRNN configurations
(baseline; bidirectional attention with a head) at concrete inputs. -/
theorem claim_C1_witness :
    (∀ v ∈ saintScenOut.1, v.length = (saintInit saintCfgScen).output_dim) ∧
    (∀ v ∈ mR1Out, v.length = mR1.output_dim) ∧
    (∀ v ∈ mHeadOut, v.length = mHead.output_dim) :=
  ⟨claim_C1.1 saintCfgScen X55 saintScenOut.1 saintScenOut.2 rfl,
   claim_C1.2 rnnCfgBase mR1 [[0, 1]] mR1Out rfl (by decide) (by decide) rfl,
   claim_C1.2 rnnCfgHead mHead [[0, 1]] mHeadOut rfl (by decide) (by decide) rfl⟩

/-- C3: for every `rnn_type` whose lowercase form is not one of the two
supported variants, constructing `AttentiveRNN` raises the descriptive
`ValueError` at construction time; and a forward call on a successfully
constructed model never fails for this reason (the `rnn_type` dispatch in
`forward` never reaches the branch that leaves `o` unassigned). -/
theorem claim_C3 (cfg : RNNConfig) (m : RNNModel) (X : List (List Nat)) :
    (pyLower cfg.rnn_type ∉ ["lstm", "gru"] →
      attentiveRNNInit cfg =
        Except.error (PyErr.valueError (rnnTypeErrMsg cfg.rnn_type))) ∧
    (attentiveRNNInit cfg = Except.ok m →
      attentiveRNNForward m X ≠ Except.error (PyErr.unboundLocal "o")) := by
  constructor
  · intro hbad
    unfold attentiveRNNInit
    rw [if_neg hbad]
  · intro hinit hcontra
    rcases attentiveRNNInit_ok_elim hinit with ⟨hmem, M, hM, hdt, hm⟩
    have hcfg : m.cfg = cfg := by rw [hm]; exact buildRNN_cfg cfg M.data M.shape1
    have hlow : pyLower m.cfg.rnn_type = "lstm" ∨ pyLower m.cfg.rnn_type = "gru" := by
      rw [hcfg]
      simpa using hmem
    unfold attentiveRNNForward at hcontra
    cases hemb : embedLookup m.embedWeight X with
    | error e =>
      rw [hemb] at hcontra
      have he := embedLookup_error hemb
      subst he
      simp at hcontra
    | ok embed =>
      rw [hemb] at hcontra
      cases hpo : processRnnOutputs m (rnnRun m.cfg embed).1 (rnnRun m.cfg embed).2 with
      | error e =>
        rcases processRnnOutputs_error hpo with he | he <;>
          (subst he; rcases hlow with hl | hl <;> simp [hl, hpo] at hcontra)
      | ok po =>
        cases hmd : m.mlpDims with
        | none =>
          rcases hlow with hl | hl <;> simp [hl, hpo, hmd] at hcontra
        | some dims =>
          cases hmm : mlpRunMat dims po with
          | ok out =>
            rcases hlow with hl | hl <;> simp [hl, hpo, hmd, hmm] at hcontra
          | error e =>
            have he := mlpRunMat_error hmm
            subst he
            rcases hlow with hl | hl <;> simp [hl, hpo, hmd, hmm] at hcontra

/-- C3 witness: the string "rnn" is rejected at construction with the
descriptive error, and a forward pass of a successfully constructed model
does not fail with an unassigned `o`. -/
theorem claim_C3_witness :
    attentiveRNNInit rnnCfgBad =
      Except.error (PyErr.valueError (rnnTypeErrMsg "rnn")) ∧
    attentiveRNNForward mR1 [[0, 1]] ≠
      Except.error (PyErr.unboundLocal "o") :=
  ⟨(claim_C3 rnnCfgBad dfltRNNModel [[0]]).1 (by decide),
   (claim_C3 rnnCfgBase mR1 [[0, 1]]).2 (by decide)⟩

/-- C2 (code bug): with attention enabled, the mis-indented `else` in
`_process_rnn_outputs` makes the code contradict the claim (and the width
bookkeeping of its own `__init__`): with `attn_concatenate` set and
`bidirectional` unset, `attn_inp` is never assigned and forward raises
`UnboundLocalError`; with `attn_concatenate` unset the code feeds the
output concatenated with the broadcast final hidden state (width
`2 * hidden_dim`) to an attention module built for width `hidden_dim`,
raising a shape error, where the claim says the raw output sequence alone
is fed.  Only the bidirectional-and-concatenate configuration completes. -/
theorem claim_C2_bug :
    attentiveRNNInit rnnCfgC2a = Except.ok mC2a ∧
    attentiveRNNForward mC2a [[0, 1]] =
      Except.error (PyErr.unboundLocal "attn_inp") ∧
    attentiveRNNInit rnnCfgC2b = Except.ok mC2b ∧
    mC2b.attnInputDim = 2 ∧
    attentiveRNNForward mC2b [[0, 1]] = Except.error PyErr.shapeError ∧
    attentiveRNNForward mC2c [[0, 1]] =
      Except.ok (getOkMat (attentiveRNNForward mC2c [[0, 1]])) :=
  ⟨by decide, by decide, by decide, by decide, by decide, rfl⟩

/-- C8: when both an `embed_dim` and a pretrained matrix of a different
width are supplied (and the configuration is otherwise constructible),
construction succeeds, the mismatch warning is issued, and the embedding
layer and the RNN input size use the pretrained matrix's width. -/
theorem claim_C8 (cfg : RNNConfig) (d : Nat) (M : NDArray)
    (hed : cfg.embed_dim = some d) (hem : cfg.embed_matrix = some M)
    (hne : d ≠ M.shape1) (hrnn : pyLower cfg.rnn_type ∈ ["lstm", "gru"])
    (hdt : M.dtype = "float32") :
    attentiveRNNInit cfg = Except.ok (buildRNN cfg M.data M.shape1) ∧
    (buildRNN cfg M.data M.shape1).warnings = [embedDimWarnMsg d M.shape1] ∧
    (buildRNN cfg M.data M.shape1).rnnInputSize = M.shape1 ∧
    (buildRNN cfg M.data M.shape1).embedWeight = M.data := by
  refine ⟨?_, ?_, ?_, ?_⟩
  · unfold attentiveRNNInit
    rw [if_pos hrnn]
    have hse : setEmbeddings cfg.embed_matrix = Except.ok (M.data, M.shape1) := by
      simp [setEmbeddings, hem, hdt]
    rw [hse]
  · rcases hh : cfg.head_hidden_dims with _ | hd2 <;>
      simp [buildRNN, hh, hed, hem, hne]
  · rcases hh : cfg.head_hidden_dims with _ | hd2 <;> simp [buildRNN, hh]
  · rcases hh : cfg.head_hidden_dims with _ | hd2 <;> simp [buildRNN, hh]

/-- C8 witness: requested width 3 against a pretrained 2-wide matrix. -/
theorem claim_C8_witness :
    attentiveRNNInit rnnCfgC8 = Except.ok (buildRNN rnnCfgC8 M22.data M22.shape1) ∧
    (buildRNN rnnCfgC8 M22.data M22.shape1).warnings = [embedDimWarnMsg 3 M22.shape1] ∧
    (buildRNN rnnCfgC8 M22.data M22.shape1).rnnInputSize = M22.shape1 ∧
    (buildRNN rnnCfgC8 M22.data M22.shape1).embedWeight = M22.data :=
  claim_C8 rnnCfgC8 3 M22 rfl rfl (by decide) (by decide) rfl

/-- C9 counterexample: the claim says a pretrained-matrix row count
inconsistent with `vocab_size` is rejected at construction; here the
matrix has 2 rows, `vocab_size` is 3, and construction succeeds. -/
theorem claim_C9_counterexample :
    rnnCfgC9.embed_matrix = some M22 ∧ M22.shape0 = 2 ∧
    rnnCfgC9.vocab_size = 3 ∧
    attentiveRNNInit rnnCfgC9 = Except.ok mC9 :=
  ⟨rfl, rfl, rfl, by decide⟩

/-- C9 amended: a pretrained matrix whose dtype is not float32 is rejected
immediately at construction with a descriptive error; a row count
inconsistent with `vocab_size` is not checked at construction (the
embedding weight is replaced wholesale, so with a well-typed matrix and a
valid `rnn_type` construction always succeeds). -/
theorem claim_C9_amended (cfg : RNNConfig) (M : NDArray)
    (hem : cfg.embed_matrix = some M)
    (hrnn : pyLower cfg.rnn_type ∈ ["lstm", "gru"]) :
    (M.dtype ≠ "float32" →
      attentiveRNNInit cfg =
        Except.error (PyErr.assertionError (dtypeErrMsg M.dtype))) ∧
    (M.dtype = "float32" →
      attentiveRNNInit cfg = Except.ok (buildRNN cfg M.data M.shape1)) := by
  constructor
  · intro hbad
    unfold attentiveRNNInit
    rw [if_pos hrnn]
    have hse : setEmbeddings cfg.embed_matrix =
        Except.error (PyErr.assertionError (dtypeErrMsg M.dtype)) := by
      simp [setEmbeddings, hem, hbad]
    rw [hse]
  · intro hdt
    unfold attentiveRNNInit
    rw [if_pos hrnn]
    have hse : setEmbeddings cfg.embed_matrix = Except.ok (M.data, M.shape1) := by
      simp [setEmbeddings, hem, hdt]
    rw [hse]

/-- C9 amended witness: a float64 matrix is rejected with the descriptive
assertion error; the float32 matrix with 2 rows against `vocab_size` 3
constructs successfully. -/
theorem claim_C9_amended_witness :
    attentiveRNNInit rnnCfgC9bad =
      Except.error (PyErr.assertionError (dtypeErrMsg "float64")) ∧
    attentiveRNNInit rnnCfgC9 = Except.ok (buildRNN rnnCfgC9 M22.data M22.shape1) :=
  ⟨(claim_C9_amended rnnCfgC9bad M22f64 rfl (by decide)).1 (by decide),
   (claim_C9_amended rnnCfgC9 M22 rfl (by decide)).2 rfl⟩

/-- C4: after a forward pass of a SAINT model with `n_blocks >= 1`, the
attention-weight list has exactly `n_blocks` entries; each entry pairs a
column-attention tensor of shape `(batch, heads, features, features)` with
a row-attention tensor of shape `(1, heads, batch, batch)`. -/
theorem claim_C4 (cfg : SAINTConfig) (X : Mat) (out : Mat)
    (ws : List (Ten4 × Ten4)) (_hb : 1 ≤ cfg.n_blocks)
    (hfwd : saintForward (saintInit cfg) X = Except.ok (out, ws)) :
    ws.length = cfg.n_blocks ∧
    ∀ p ∈ ws,
      shape4 p.1 X.length cfg.n_heads (saintInit cfg).n_feats
        (saintInit cfg).n_feats ∧
      shape4 p.2 1 cfg.n_heads X.length X.length := by
  unfold saintForward at hfwd
  cases ht : saintTokens (saintInit cfg) X with
  | none => rw [ht] at hfwd; simp at hfwd
  | some x =>
    rw [ht] at hfwd
    have hxl : x.length = X.length := saintTokens_length ht
    cases hmm2 : mlpRunMat (saintInit cfg).mlpDims
        (saintPool (saintInit cfg)
          (saintBlocks (saintInit cfg).cfg.n_heads (saintInit cfg).n_feats
            (saintInit cfg).cfg.n_blocks x).1) with
    | error e => simp [hmm2] at hfwd
    | ok out2 =>
      simp only [hmm2, Except.ok.injEq, Prod.mk.injEq] at hfwd
      obtain ⟨-, h2⟩ := hfwd
      subst h2
      constructor
      · exact saintBlocks_len _ _ _ _
      · intro p hp
        have hpval := saintBlocks_mem _ _ _ _ p hp
        rw [hpval, hxl]
        exact ⟨shape4_mk4 _ _ _ _ _, shape4_mk4 _ _ _ _ _⟩

/-- C4 witness: the spec scenario (batch 5, four 4-category categorical
columns plus one continuous column, dimension 32, 2 blocks, 8 heads). -/
theorem claim_C4_witness :
    saintScenOut.2.length = 2 ∧
    ∀ p ∈ saintScenOut.2,
      shape4 p.1 5 8 (saintInit saintCfgScen).n_feats
        (saintInit saintCfgScen).n_feats ∧
      shape4 p.2 1 8 5 5 :=
  claim_C4 saintCfgScen X55 saintScenOut.1 saintScenOut.2 (by decide) rfl

/-- C5: the reduction step of `SAINT.forward` keeps only the summary
token's final representation exactly when the schema contains a
`cls_token` column, and flattens the full token sequence otherwise; the
MLP input width is `input_dim` versus `n_feats * input_dim`
accordingly. -/
theorem claim_C5 (cfg : SAINTConfig) (x : Ten3) :
    (("cls_token" ∈ cfg.column_idx) →
      (saintInit cfg).with_cls_token = true ∧
      saintPool (saintInit cfg) x = x.map (fun s => s.getD 0 []) ∧
      (saintInit cfg).mlpDims.headD 0 = cfg.input_dim) ∧
    (("cls_token" ∉ cfg.column_idx) →
      (saintInit cfg).with_cls_token = false ∧
      saintPool (saintInit cfg) x = x.map (fun s => s.flatten) ∧
      (saintInit cfg).mlpDims.headD 0 = (saintInit cfg).n_feats * cfg.input_dim) := by
  constructor
  · intro hmem
    have hcls : (saintInit cfg).with_cls_token = true := by
      simp [saintInit]
      exact hmem
    refine ⟨hcls, ?_, ?_⟩
    · simp [saintPool, hcls]
    · rw [saintInit_mlp_head, hcls]
      simp
  · intro hmem
    have hcls : (saintInit cfg).with_cls_token = false := by
      simp [saintInit]
      exact hmem
    refine ⟨hcls, ?_, ?_⟩
    · simp [saintPool, hcls]
    · rw [saintInit_mlp_head, hcls]
      simp

/-- C5 witness: the small configuration with and without the summary-token
column, on a concrete token tensor. -/
theorem claim_C5_witness :
    ((saintInit saintCfgCls).with_cls_token = true ∧
      saintPool (saintInit saintCfgCls) [[[1], [2]]] =
        ([[[1], [2]]] : Ten3).map (fun s => s.getD 0 []) ∧
      (saintInit saintCfgCls).mlpDims.headD 0 = saintCfgCls.input_dim) ∧
    ((saintInit saintCfgSmall).with_cls_token = false ∧
      saintPool (saintInit saintCfgSmall) [[[1], [2]]] =
        ([[[1], [2]]] : Ten3).map (fun s => s.flatten) ∧
      (saintInit saintCfgSmall).mlpDims.headD 0 =
        (saintInit saintCfgSmall).n_feats * saintCfgSmall.input_dim) :=
  ⟨(claim_C5 saintCfgCls [[[1], [2]]]).1 (by decide),
   (claim_C5 saintCfgSmall [[[1], [2]]]).2 (by decide)⟩

/-- C7: the token tensor fed to the transformer blocks carries
`n_cat + n_cont` feature tokens per sample, each of width `input_dim`, and
running the blocks preserves the token count and the embedding width. -/
theorem claim_C7 (cfg : SAINTConfig) (X : Mat) (x : Ten3)
    (ht : saintTokens (saintInit cfg) X = some x) :
    (saintInit cfg).n_feats = (saintInit cfg).n_cat + (saintInit cfg).n_cont ∧
    (∀ s ∈ x, s.length = (saintInit cfg).n_cat + (saintInit cfg).n_cont ∧
      ∀ v ∈ s, v.length = cfg.input_dim) ∧
    (∀ s ∈ (saintBlocks cfg.n_heads (saintInit cfg).n_feats cfg.n_blocks x).1,
      s.length = (saintInit cfg).n_cat + (saintInit cfg).n_cont ∧
      ∀ v ∈ s, v.length = cfg.input_dim) := by
  have htok : ∀ s ∈ x, s.length = (saintInit cfg).n_cat + (saintInit cfg).n_cont ∧
      ∀ v ∈ s, v.length = cfg.input_dim := by
    unfold saintTokens sameSizeCatAndContEmbeddings at ht
    cases hc : (saintInit cfg).cfg.cat_embed_input.isSome <;>
      cases hn : (saintInit cfg).cfg.continuous_cols.isSome <;>
      simp only [hc, hn, Bool.false_eq_true, if_false, if_true] at ht
    · simp at ht
    · -- only continuous tokens: n_cat = 0
      have hcat0 : (saintInit cfg).n_cat = 0 := by
        simp only [saintInit]
        rcases hco : cfg.cat_embed_input with _ | l
        · rfl
        · rw [show (saintInit cfg).cfg.cat_embed_input = cfg.cat_embed_input from rfl,
            hco] at hc
          simp at hc
      simp only [Option.some.injEq] at ht
      subst ht
      intro s hs
      rcases List.mem_map.mp hs with ⟨-, -, rfl⟩
      refine ⟨by simp [hcat0], ?_⟩
      intro v hv
      rw [List.eq_of_mem_replicate hv]
      exact vzeros_length _
    · -- only categorical tokens: n_cont = 0
      have hcont0 : (saintInit cfg).n_cont = 0 := by
        simp only [saintInit]
        rcases hco : cfg.continuous_cols with _ | l
        · rfl
        · rw [show (saintInit cfg).cfg.continuous_cols = cfg.continuous_cols from rfl,
            hco] at hn
          simp at hn
      simp only [Option.some.injEq] at ht
      subst ht
      intro s hs
      rcases List.mem_map.mp hs with ⟨-, -, rfl⟩
      refine ⟨by simp [hcont0], ?_⟩
      intro v hv
      rw [List.eq_of_mem_replicate hv]
      exact vzeros_length _
    · -- both present: concatenated token lists
      simp only [Option.some.injEq] at ht
      subst ht
      intro s hs
      unfold cat3dim1 at hs
      rw [List.zipWith_map_left, List.zipWith_map_right, List.zipWith_same] at hs
      rcases List.mem_map.mp hs with ⟨-, -, rfl⟩
      constructor
      · simp
      · intro v hv
        rcases List.mem_append.mp hv with hv | hv <;>
          (rw [List.eq_of_mem_replicate hv]; exact vzeros_length _)
  refine ⟨rfl, htok, ?_⟩
  rw [saintBlocks_fst]
  exact htok

/-- C7 witness: the small configuration's token tensor on a concrete
batch. -/
theorem claim_C7_witness :
    (saintInit saintCfgSmall).n_feats =
      (saintInit saintCfgSmall).n_cat + (saintInit saintCfgSmall).n_cont ∧
    (∀ s ∈ saintSmallTokens,
      s.length = (saintInit saintCfgSmall).n_cat + (saintInit saintCfgSmall).n_cont ∧
      ∀ v ∈ s, v.length = saintCfgSmall.input_dim) ∧
    (∀ s ∈ (saintBlocks saintCfgSmall.n_heads (saintInit saintCfgSmall).n_feats
        saintCfgSmall.n_blocks saintSmallTokens).1,
      s.length = (saintInit saintCfgSmall).n_cat + (saintInit saintCfgSmall).n_cont ∧
      ∀ v ∈ s, v.length = saintCfgSmall.input_dim) :=
  claim_C7 saintCfgSmall X22 saintSmallTokens rfl

/-- C10: `SAINT.forward` fails with the unassigned-`x` error exactly when
the embedding composer yields neither a categorical nor a continuous token
tensor, i.e. when neither `cat_embed_input` nor `continuous_cols` is
configured; whenever at least one is configured, that failure branch is
unreachable. -/
theorem claim_C10 (cfg : SAINTConfig) (X : Mat) :
    ((cfg.cat_embed_input = none ∧ cfg.continuous_cols = none) →
      saintForward (saintInit cfg) X = Except.error (PyErr.unboundLocal "x")) ∧
    ((cfg.cat_embed_input ≠ none ∨ cfg.continuous_cols ≠ none) →
      saintForward (saintInit cfg) X ≠ Except.error (PyErr.unboundLocal "x")) := by
  constructor
  · rintro ⟨hc, hn⟩
    have ht : saintTokens (saintInit cfg) X = none := by
      unfold saintTokens sameSizeCatAndContEmbeddings
      rw [show (saintInit cfg).cfg.cat_embed_input = cfg.cat_embed_input from rfl,
        show (saintInit cfg).cfg.continuous_cols = cfg.continuous_cols from rfl,
        hc, hn]
      simp
    unfold saintForward
    rw [ht]
  · intro hor hcontra
    unfold saintForward at hcontra
    cases ht : saintTokens (saintInit cfg) X with
    | none =>
      rcases hco : cfg.cat_embed_input with _ | l <;>
        rcases hnn : cfg.continuous_cols with _ | l2
      · rcases hor with hor | hor
        · exact hor hco
        · exact hor hnn
      all_goals {
        unfold saintTokens sameSizeCatAndContEmbeddings at ht
        rw [show (saintInit cfg).cfg.cat_embed_input = cfg.cat_embed_input from rfl,
          show (saintInit cfg).cfg.continuous_cols = cfg.continuous_cols from rfl,
          hco, hnn] at ht
        simp at ht
      }
    | some x =>
      rw [ht] at hcontra
      cases hmm2 : mlpRunMat (saintInit cfg).mlpDims
          (saintPool (saintInit cfg)
            (saintBlocks (saintInit cfg).cfg.n_heads (saintInit cfg).n_feats
              (saintInit cfg).cfg.n_blocks x).1) with
      | ok out2 => simp [hmm2] at hcontra
      | error e =>
        have he := mlpRunMat_error hmm2
        subst he
        simp [hmm2] at hcontra

/-- C10 witness: with neither input configured the forward pass fails with
the unassigned-`x` error; with the small configuration it does not. -/
theorem claim_C10_witness :
    saintForward (saintInit saintCfgEmpty) X22 =
      Except.error (PyErr.unboundLocal "x") ∧
    saintForward (saintInit saintCfgSmall) X22 ≠
      Except.error (PyErr.unboundLocal "x") :=
  ⟨(claim_C10 saintCfgEmpty X22).1 ⟨rfl, rfl⟩,
   (claim_C10 saintCfgSmall X22).2 (Or.inl (by simp [saintCfgSmall]))⟩

end PWD
